import Mathlib

/-!
Verification development for the MvMM-RegNet 2-D model
(`src_2d/core/model_2d_ddf_mvmm_label_base.py`).

Shallow embedding conventions:
* tensors are flattened over batch and spatial axes: a `Pixel` is the list of
  per-class values at one location, a `ProbMap` is the list of pixels, and a
  stacked per-atlas tensor is a `List ProbMap` with the atlas axis outermost;
* a displacement field (`Field`) is the flat list of its rational entries;
* real arithmetic is modelled over `ℚ`;
* collaborators that live outside the embedded file (the spatial resampler,
  the loss sub-modules from `losses_2d`/`metrics_2d`, the Gaussian
  probability mapper from `utils_2d`, the elementwise power `x ↦ x ** 0.3`)
  are abstract function parameters gathered in a `Collab` record, exactly as
  the spec declares them as interface contracts;
* Python exceptions raised during graph construction are modelled by
  `Except BuildError`.
-/

namespace MvMM

abbrev Pixel := List ℚ
abbrev ProbMap := List Pixel
abbrev Field := List ℚ

/-- Mean of a list of rationals (`tf.reduce_mean` over all entries); the mean
of the empty list is `0/0 = 0` by the `ℚ` division convention. -/
def qmean (xs : List ℚ) : ℚ := xs.sum / xs.length

def pointwiseMulPix (a b : Pixel) : Pixel := List.zipWith (· * ·) a b

def pointwiseMulMap (a b : ProbMap) : ProbMap := List.zipWith pointwiseMulPix a b

/-- Elementwise product of two atlas-stacked tensors
(`warped_atlases_prob[0] * warped_atlases_weight` in the source). -/
def stackMul (a b : List ProbMap) : List ProbMap := List.zipWith pointwiseMulMap a b

def oneMinusMap (p : ProbMap) : ProbMap := p.map (fun v => v.map (fun x => 1 - x))

def mapSub (a b : ProbMap) : ProbMap := List.zipWith (List.zipWith (· - ·)) a b

/-- Modelled from the spec: `utils_2d.get_joint_prob` is absent from `src/`;
section 4.4 specifies product-pooling, `joint[c] ∝ Π_n warped[n,c]`, followed
by renormalization across classes. -/
def normalizePix (v : Pixel) : Pixel := v.map (fun x => x / v.sum)

def prodAtlases : List ProbMap → ProbMap
  | [] => []
  | m :: ms => ms.foldl pointwiseMulMap m

def get_joint_prob (stack : List ProbMap) : ProbMap :=
  (prodAtlases stack).map normalizePix

/-- Modelled from the spec: `utils_2d.get_segmentation` is absent from
`src/`; section 4.5 specifies the arg-max one-hot conversion of the joint
probability. Ties keep the first maximal class, as `tf.argmax` does. -/
def argmaxAux : List ℚ → ℕ → ℕ → ℚ → ℕ
  | [], _, bi, _ => bi
  | x :: xs, i, bi, bv => if bv < x then argmaxAux xs (i + 1) i x else argmaxAux xs (i + 1) bi bv

def argmaxIdx : List ℚ → ℕ
  | [] => 0
  | x :: xs => argmaxAux xs 1 0 x

def oneHot (n i : ℕ) : Pixel := (List.range n).map (fun j => if j = i then 1 else 0)

def get_segmentation (p : ProbMap) : ProbMap :=
  p.map (fun v => oneHot v.length (argmaxIdx v))

/-- Substring test, embedding the Python expression
`'multi_scale' in self.cost_name` (string containment). -/
def chPre : List Char → List Char → Bool
  | [], _ => true
  | _ :: _, [] => false
  | a :: as, b :: bs => a == b && chPre as bs

def chSub : List Char → List Char → Bool
  | pat, [] => pat.isEmpty
  | pat, c :: t => chPre pat (c :: t) || chSub pat t

def strHasSub (s pat : String) : Bool := chSub pat.data s.data

/-- External collaborators of the core, supplied as abstract functions: the
spatial resampler, the probability mapper and the loss/metric sub-modules of
this repository live outside the embedded source file and are specified only
through their interfaces (spec sections 2 and 6). -/
structure Collab where
  /-- `SpatialTransformer(interp_method)([tensor, ddf])`. -/
  resampleMap : String → ProbMap → Field → ProbMap
  /-- resampling of a displacement field by itself, the primitive used by the
  scaling-and-squaring self-composition step (spec 4.2). -/
  resampleField : Field → Field → Field
  /-- `utils_2d.get_prob_from_label(label, sigma, eps)`. -/
  probFromLabel : ProbMap → ℚ → ℚ → ProbMap
  /-- `LabelConsistencyLoss(...).loss(target_prob, joint_prob, pi)`. -/
  lcLoss : ProbMap → ProbMap → Pixel → ℚ
  /-- `LabelConsistencyLoss(...).multi_scale_loss(target_prob, joint_probs, pi)`. -/
  lcMulti : ProbMap → List ProbMap → Pixel → ℚ
  /-- `DiceLoss().loss(target_prob, warped_prob_i)`. -/
  diceLoss : ProbMap → ProbMap → ℚ
  /-- `DiceLoss().multi_scale_loss(target_prob, joint_probs)`. -/
  diceMulti : ProbMap → List ProbMap → ℚ
  /-- mean softmax cross-entropy with the joint probability as logits. -/
  sceMean : ProbMap → ProbMap → ℚ
  /-- `CrossCorrelation().loss(target_image, warped_image_i)`. -/
  nccLoss : ProbMap → ProbMap → ℚ
  /-- `MvMMNetLoss(...).loss_weight(target_prob, warped_probs, target_weight, warped_weights, pi)`. -/
  mvmmWeight : ProbMap → List ProbMap → ProbMap → List ProbMap → Pixel → ℚ
  /-- `MvMMNetLoss(...).loss_mask(target_prob, warped_probs, pi)`. -/
  mvmmMask : ProbMap → List ProbMap → Pixel → ℚ
  /-- `OverlapMetrics(...).averaged_foreground_jaccard(target_label, prob)`. -/
  jaccFg : ProbMap → ProbMap → ℚ
  /-- `CrossEntropy(eps=0.01, reduce_mean=False).loss(y_true, y_pred)`:
  per-pixel cross-entropy field. -/
  ceMap : ProbMap → ProbMap → Field
  /-- the elementwise real power `x ↦ x ** 0.3` (`tf.pow(x, y=0.3)`). -/
  rpow03 : ℚ → ℚ
  /-- `LocalDisplacementEnergy('bending').compute_displacement_energy(ddf_i, weight)`. -/
  bendingE : Field → ℚ → ℚ
  /-- `LocalDisplacementEnergy('bending').compute_jacobian_determinant(ddf_i)`:
  per-pixel determinant field (spec 4.7 contract). -/
  jacDetF : Field → Field

/-- Configuration extracted from `cost_kwargs` / `net_kwargs` in
`UnifiedMultiAtlasSegNet.__init__`. `reg0`/`reg1` are `regularizer_type[0]`
and `[1]`; `coef0`/`coef1` are `regularization_coefficient[0]` and `[1]`. -/
structure Config where
  n_atlas : ℕ
  cost_name : Option String
  probSigmaOpt : Option (List ℚ)
  prob_eps : ℚ
  reg0 : String
  reg1 : String
  coef0 : ℚ
  coef1 : ℚ
  method : String
  diffeomorphism : Bool
  int_steps : ℕ
  pi : Pixel
  deriving DecidableEq, Inhabited

/-- Per-forward-pass inputs: the placeholder feeds plus the outputs of the
external network body (`(ddf, regularization_loss[, scores])`, spec 6). -/
structure NetInput where
  target_image : ProbMap
  target_label : ProbMap
  target_weight : ProbMap
  atlases_image : List ProbMap
  atlases_label : List ProbMap
  atlases_weight : List ProbMap
  raw_ddf : List Field
  regularization_loss : ℚ
  scores : List ℚ
  deriving DecidableEq, Inhabited

/-- Exceptions raised while the graph is built: the `TypeError` from
`'multi_scale' in None` (line 65), the `ValueError` for an unknown network
method (line 132) and the `NotImplementedError` branches of `_get_cost`
(lines 253/256/295/324). -/
inductive BuildError
  | noneTypeMembership
  | unknownMethod (m : String)
  | notImplementedCost (name : String)
  deriving DecidableEq, Inhabited

/-- Scaling-and-squaring self-composition step:
`displacement ← displacement + resample(displacement, displacement)`. -/
def squareStep (C : Collab) (d : Field) : Field :=
  List.zipWith (· + ·) d (C.resampleField d d)

/-- Modelled from the spec: `utils_2d.integrate_vec` is absent from `src/`;
section 4.2 specifies `steps` repetitions of the self-composition step. -/
def integrate_vec (C : Collab) (v : Field) : ℕ → Field
  | 0 => v
  | s + 1 => squareStep C (integrate_vec C v s)

def scaleDivField (v : Field) (k : ℚ) : Field := v.map (fun x => x / k)

/-- Lines 134-138 of the source composed with the spec-modelled
`integrate_vec`: `vec = ddf / 2 ** int_steps` followed by the squaring loop. -/
def integrate (C : Collab) (v : Field) (steps : ℕ) : Field :=
  integrate_vec C (scaleDivField v (2 ^ steps)) steps

/-- `_get_warped_atlases_prob` (lines 350-375): for each sigma, stack over the
atlas axis the resampled per-atlas probability maps. -/
def get_warped_atlases_prob (C : Collab) (nA : ℕ) (atlases_label : List ProbMap)
    (ddf : List Field) (sigmas : List ℚ) (eps : ℚ) (interp : String) :
    List (List ProbMap) :=
  sigmas.map (fun σ =>
    (List.range nA).map (fun n =>
      C.resampleMap interp (C.probFromLabel (atlases_label.getD n []) σ eps) (ddf.getD n [])))

/-- `_get_warped_atlases` (lines 377-382): per-atlas resampling without the
probability-mapping step. -/
def get_warped_atlases (C : Collab) (nA : ℕ) (atlases : List ProbMap)
    (ddf : List Field) (interp : String) : List ProbMap :=
  (List.range nA).map (fun i => C.resampleMap interp (atlases.getD i []) (ddf.getD i []))

/-- Lines 64-65: `prob_sigma` defaults to `(1,2,4,8)` for multi-scale cost
names and `(1,)` otherwise. -/
def netSigmas (cfg : Config) (cname : String) : List ℚ :=
  if strHasSub cname ("multi_scale") then cfg.probSigmaOpt.getD [1, 2, 4, 8]
  else cfg.probSigmaOpt.getD [1]

/-- Lines 134-138: the field `self.ddf` after the optional diffeomorphic
integration; this is the field every later consumer reads. -/
def netDdf (C : Collab) (cfg : Config) (inp : NetInput) : List Field :=
  if cfg.diffeomorphism then inp.raw_ddf.map (fun v => integrate C v cfg.int_steps)
  else inp.raw_ddf

def netTargetProb (C : Collab) (cfg : Config) (inp : NetInput) (cname : String) : ProbMap :=
  C.probFromLabel inp.target_label ((netSigmas cfg cname).getD 0 0) cfg.prob_eps

def netWap (C : Collab) (cfg : Config) (inp : NetInput) (cname : String) :
    List (List ProbMap) :=
  get_warped_atlases_prob C cfg.n_atlas inp.atlases_label (netDdf C cfg inp)
    (netSigmas cfg cname) cfg.prob_eps ("linear")

def netWaw (C : Collab) (cfg : Config) (inp : NetInput) : List ProbMap :=
  get_warped_atlases C cfg.n_atlas inp.atlases_weight (netDdf C cfg inp) ("linear")

def netWai (C : Collab) (cfg : Config) (inp : NetInput) : List ProbMap :=
  get_warped_atlases C cfg.n_atlas inp.atlases_image (netDdf C cfg inp) ("linear")

def netJoint (C : Collab) (cfg : Config) (inp : NetInput) (cname : String) :
    List ProbMap :=
  (netWap C cfg inp cname).map get_joint_prob

/-- The `elif` chain of `_get_cost` (lines 252-324), before the scores and
regularization additions. -/
def get_cost_base (C : Collab) (cfg : Config) (cname : String) (target_prob : ProbMap)
    (joint : List ProbMap) (wp0 : List ProbMap) (waw : List ProbMap)
    (wai : List ProbMap) (inp : NetInput) (ddf : List Field) : Except BuildError ℚ :=
  if cname = ("mvmm") then .error (.notImplementedCost cname)
  else if cname = ("mvmm_mas") then .error (.notImplementedCost cname)
  else if cname = ("label_consistency") then
    .ok (C.lcLoss target_prob (joint.getD 0 []) cfg.pi)
  else if cname = ("multi_scale_label_consistency") then
    .ok (C.lcMulti target_prob joint cfg.pi)
  else if cname = ("dice") then
    .ok (qmean ((List.range cfg.n_atlas).map (fun i => C.diceLoss target_prob (wp0.getD i []))))
  else if cname = ("multi_scale_dice") then
    .ok (C.diceMulti target_prob joint)
  else if cname = ("cross_entropy") then
    .ok (C.sceMean inp.target_label (joint.getD 0 []))
  else if cname = ("SSD") then
    .ok (qmean ((mapSub target_prob (joint.getD 0 [])).flatten.map (fun x => x * x)))
  else if cname = ("LNCC") then
    .ok (qmean ((List.range cfg.n_atlas).map (fun i => C.nccLoss inp.target_image (wai.getD i []))))
  else if cname = ("KL_divergence") then .error (.notImplementedCost cname)
  else if cname = ("L2_norm") then
    .ok (qmean (ddf.flatten.map (fun x => x * x)))
  else if cname = ("mvmm_net_gmm") then
    .ok (C.mvmmWeight target_prob wp0 inp.target_weight waw cfg.pi)
  else if cname = ("mvmm_net_ncc") then
    .ok (C.mvmmWeight target_prob wp0 inp.target_weight waw cfg.pi)
  else if cname = ("mvmm_net_lecc") then
    .ok (C.mvmmWeight target_prob wp0 inp.target_weight waw cfg.pi)
  else if cname = ("mvmm_net_mask") then
    .ok (C.mvmmMask target_prob wp0 cfg.pi)
  else .error (.notImplementedCost cname)

def netBase (C : Collab) (cfg : Config) (inp : NetInput) (cname : String) :
    Except BuildError ℚ :=
  get_cost_base C cfg cname (netTargetProb C cfg inp cname) (netJoint C cfg inp cname)
    ((netWap C cfg inp cname).getD 0 []) (netWaw C cfg inp) (netWai C cfg inp) inp
    (netDdf C cfg inp)

/-- Lines 326-337: per-atlas ground-truth scores in `ddf_score` mode,
`Jaccard + mean(CE(target, 1 - warped_prob) ** 0.3)`. -/
def netScoresGT (C : Collab) (cfg : Config) (inp : NetInput) (cname : String) : List ℚ :=
  (List.range cfg.n_atlas).map (fun n =>
    C.jaccFg inp.target_label (((netWap C cfg inp cname).getD 0 []).getD n [])
      + qmean ((C.ceMap inp.target_label
          (oneMinusMap (((netWap C cfg inp cname).getD 0 []).getD n []))).map C.rpow03))

/-- Lines 326-342: `scores_loss` is the mean absolute deviation of the
predicted scores from the ground-truth scores in `ddf_score` mode and the
constant `0` otherwise. -/
def netScoresLoss (C : Collab) (cfg : Config) (inp : NetInput) (cname : String) : ℚ :=
  if cfg.method = ("ddf_score") then
    qmean (List.zipWith (fun s t => |s - t|) inp.scores (netScoresGT C cfg inp cname))
  else 0

/-- Lines 344-346: the regularization addition, guarded by
`regularizer_type[0] in ('l2', 'l1') and regularization_coefficient[0]`
(Python truthiness of the coefficient is nonzeroness). -/
def regTerm (cfg : Config) (inp : NetInput) : ℚ :=
  if (cfg.reg0 = ("l2") ∨ cfg.reg0 = ("l1")) ∧ cfg.coef0 ≠ 0 then
    inp.regularization_loss * cfg.coef0
  else 0

/-- `_get_cost` (lines 238-348): base variant, then the scores term, then the
regularization term. Adding the always-defined `netScoresLoss` (zero outside
`ddf_score` mode) and `regTerm` (zero when the guard fails) matches the
conditional `+=` statements of the source. -/
def get_cost (C : Collab) (cfg : Config) (inp : NetInput) (cname : String) :
    Except BuildError ℚ :=
  match netBase C cfg inp cname with
  | .error e => .error e
  | .ok b => .ok (b + netScoresLoss C cfg inp cname + regTerm cfg inp)

/-- The tensors of the built graph that the claims mention, mirroring the
attributes set by `UnifiedMultiAtlasSegNet.__init__`. -/
structure NetGraph where
  prob_sigma : List ℚ
  ddf : List Field
  target_prob : ProbMap
  warped_atlases_prob : List (List ProbMap)
  warped_atlases_weight : List ProbMap
  atlases_joint_prob : List ProbMap
  scores_gt : List ℚ
  scores_loss : ℚ
  cost : ℚ
  pretrain_cost : ℚ
  segmenter : ProbMap
  deriving DecidableEq, Inhabited

def netGraphOf (C : Collab) (cfg : Config) (inp : NetInput) (cname : String) (c : ℚ) :
    NetGraph where
  prob_sigma := netSigmas cfg cname
  ddf := netDdf C cfg inp
  target_prob := netTargetProb C cfg inp cname
  warped_atlases_prob := netWap C cfg inp cname
  warped_atlases_weight := netWaw C cfg inp
  atlases_joint_prob := netJoint C cfg inp cname
  scores_gt := if cfg.method = ("ddf_score") then netScoresGT C cfg inp cname else []
  scores_loss := netScoresLoss C cfg inp cname
  cost := c
  pretrain_cost := qmean (((netDdf C cfg inp).flatten).map (fun x => x * x))
  segmenter := get_segmentation (get_joint_prob
    (stackMul ((netWap C cfg inp cname).getD 0 []) (netWaw C cfg inp)))

/-- Graph construction, following the statement order of
`UnifiedMultiAtlasSegNet.__init__`: the `prob_sigma` membership test on
`cost_name` (line 64, a `TypeError` when `cost_name` is `None`), the network
method dispatch (lines 112-132), the optional diffeomorphic integration
(lines 134-138), the loss construction (line 159, whose exceptions
propagate), the pretraining cost (line 160) and the segmenter (lines
162-166). -/
def buildNet (C : Collab) (cfg : Config) (inp : NetInput) : Except BuildError NetGraph :=
  match cfg.cost_name with
  | none => .error .noneTypeMembership
  | some cname =>
    if cfg.method = ("ddf_label") ∨ cfg.method = ("ddf_score") then
      match get_cost C cfg inp cname with
      | .error e => .error e
      | .ok c => .ok (netGraphOf C cfg inp cname c)
    else .error (.unknownMethod cfg.method)

/-- Lines 644-648 of `Trainer._initialize`: mean bending energy over the
atlas axis, computed from the network attribute `self.net.ddf`. -/
def trainerBendingEnergy (C : Collab) (g : NetGraph) (w : ℚ) : ℚ :=
  qmean (g.ddf.map (fun f => C.bendingE f w))

/-- Line 651-652: `tf.reduce_mean` over the list of per-atlas determinant
fields collapses every axis, producing a scalar. -/
def jacobianDetScalar (C : Collab) (ddf : List Field) : ℚ :=
  qmean ((ddf.map C.jacDetF).flatten)

/-- Lines 653-654: `tf.math.count_nonzero(tf.less_equal(jacobian_det, 0))`
applied to the scalar mean, hence a value in `{0, 1}`. -/
def numNegJacob (C : Collab) (ddf : List Field) : ℚ :=
  if jacobianDetScalar C ddf ≤ 0 then 1 else 0

def trainerNumNegJacob (C : Collab) (g : NetGraph) : ℚ := numNegJacob C g.ddf

/-- The count the spec describes: locations of the per-pixel determinant
fields whose value is non-positive. -/
def negJacobCountClaim (C : Collab) (ddf : List Field) : ℕ :=
  (((ddf.map C.jacDetF).flatten).filter (fun x => decide (x ≤ 0))).length

/-- The optimizer-name dispatch of `Trainer._get_optimizer` (lines 525-591):
five implemented optimizers, two `NotImplementedError` stubs, and a
`ValueError` for anything else. -/
def get_optimizer_check (name : String) : Except String Unit :=
  if name = ("momentum") then .ok ()
  else if name = ("sgd") then .ok ()
  else if name = ("rmsprop") then .ok ()
  else if name = ("adam") then .ok ()
  else if name = ("adam-clr") then .ok ()
  else if name = ("radam") then .error ("NotImplementedError")
  else if name = ("adabound") then .error ("NotImplementedError")
  else .error ("Unknown optimizer: " ++ name)

def knownOptimizers : List String :=
  ["momentum", "sgd", "rmsprop", "adam", "adam-clr", "radam", "adabound"]

/-- Every name the `_get_cost` `elif` chain recognizes (including the
`NotImplementedError` stubs). -/
def costNames : List String :=
  ["mvmm", "mvmm_mas", "label_consistency", "multi_scale_label_consistency",
   "dice", "multi_scale_dice", "cross_entropy", "SSD", "LNCC", "KL_divergence",
   "L2_norm", "mvmm_net_gmm", "mvmm_net_ncc", "mvmm_net_lecc", "mvmm_net_mask"]

/-- Shape-and-value test: the first argument is an all-ones tensor with
exactly the shape of the second. -/
def onesPix : Pixel → Pixel → Bool
  | [], [] => true
  | a :: as, _ :: bs => a == 1 && onesPix as bs
  | _, _ => false

def onesMap : ProbMap → ProbMap → Bool
  | [], [] => true
  | a :: as, b :: bs => onesPix a b && onesMap as bs
  | _, _ => false

def onesStack : List ProbMap → List ProbMap → Bool
  | [], [] => true
  | a :: as, b :: bs => onesMap a b && onesStack as bs
  | _, _ => false

lemma pointwiseMulPix_ones (v w : Pixel) (h : onesPix w v = true) :
    pointwiseMulPix v w = v := by
  induction v generalizing w with
  | nil =>
    cases w with
    | nil => rfl
    | cons a as => simp [onesPix] at h
  | cons x xs ih =>
    cases w with
    | nil => simp [onesPix] at h
    | cons a as =>
      rw [onesPix] at h
      simp only [Bool.and_eq_true, beq_iff_eq] at h
      simp [pointwiseMulPix, h.1, pointwiseMulPix] at ih ⊢
      exact ih as h.2

lemma pointwiseMulMap_ones (v w : ProbMap) (h : onesMap w v = true) :
    pointwiseMulMap v w = v := by
  induction v generalizing w with
  | nil =>
    cases w with
    | nil => rfl
    | cons a as => simp [onesMap] at h
  | cons x xs ih =>
    cases w with
    | nil => simp [onesMap] at h
    | cons a as =>
      rw [onesMap] at h
      simp only [Bool.and_eq_true] at h
      simp only [pointwiseMulMap, List.zipWith]
      rw [pointwiseMulPix_ones x a h.1]
      have := ih as h.2
      simpa [pointwiseMulMap] using this

lemma stackMul_ones (p w : List ProbMap) (h : onesStack w p = true) :
    stackMul p w = p := by
  induction p generalizing w with
  | nil =>
    cases w with
    | nil => rfl
    | cons a as => simp [onesStack] at h
  | cons x xs ih =>
    cases w with
    | nil => simp [onesStack] at h
    | cons a as =>
      rw [onesStack] at h
      simp only [Bool.and_eq_true] at h
      simp only [stackMul, List.zipWith]
      rw [pointwiseMulMap_ones x a h.1]
      have := ih as h.2
      simpa [stackMul] using this

lemma qmean_zero_of (xs : List ℚ) (h : ∀ x ∈ xs, x = 0) : qmean xs = 0 := by
  unfold qmean
  rw [List.sum_eq_zero h, zero_div]

lemma qmean_sq_flatten_zero (ddf : List Field)
    (h : ∀ f ∈ ddf, ∀ x ∈ f, x = 0) :
    qmean (ddf.flatten.map (fun x => x * x)) = 0 := by
  apply qmean_zero_of
  intro y hy
  rcases List.mem_map.mp hy with ⟨x, hx, rfl⟩
  rcases List.mem_flatten.mp hx with ⟨f, hf, hxf⟩
  rw [h f hf x hxf, mul_zero]

/-- Inversion of a successful graph construction: the configuration passed
the `cost_name` and method checks, the base loss computed to some value `b`,
and the graph is the record built from the intermediate tensors. -/
lemma buildNet_ok_elim (C : Collab) (cfg : Config) (inp : NetInput) (g : NetGraph)
    (hg : buildNet C cfg inp = .ok g) :
    ∃ cname b, cfg.cost_name = some cname
      ∧ (cfg.method = ("ddf_label") ∨ cfg.method = ("ddf_score"))
      ∧ netBase C cfg inp cname = .ok b
      ∧ g = netGraphOf C cfg inp cname
            (b + netScoresLoss C cfg inp cname + regTerm cfg inp) := by
  unfold buildNet at hg
  split at hg
  · exact absurd hg (by simp)
  · rename_i cname hcn
    split at hg
    · rename_i hm
      unfold get_cost at hg
      cases hb : netBase C cfg inp cname with
      | error e =>
        rw [hb] at hg
        exact absurd hg (by simp)
      | ok b =>
        rw [hb] at hg
        simp only [Except.ok.injEq] at hg
        exact ⟨cname, b, hcn, hm, hb, hg.symm⟩
    · exact absurd hg (by simp)

/-- A concrete instantiation of the abstract collaborators, used to evaluate
the embedding on closed inputs. -/
def trivialCollab : Collab where
  resampleMap := fun _ p _ => p
  resampleField := fun d _ => d.map (fun _ => 0)
  probFromLabel := fun l _ _ => l
  lcLoss := fun _ _ _ => 0
  lcMulti := fun _ _ _ => 0
  diceLoss := fun _ _ => 0
  diceMulti := fun _ _ => 0
  sceMean := fun _ _ => 0
  nccLoss := fun _ _ => 0
  mvmmWeight := fun _ _ _ _ _ => 0
  mvmmMask := fun _ _ _ => 0
  jaccFg := fun _ _ => 0
  ceMap := fun _ _ => []
  rpow03 := fun x => x
  bendingE := fun _ _ => 0
  jacDetF := fun _ => []

/-- A one-atlas, one-pixel, two-class input batch. -/
def inp1 : NetInput where
  target_image := [[1]]
  target_label := [[1, 0]]
  target_weight := [[1, 1]]
  atlases_image := [[[1]]]
  atlases_label := [[[1, 0]]]
  atlases_weight := [[[1, 1]]]
  raw_ddf := [[0]]
  regularization_loss := 3
  scores := [0]

def cfgSSD : Config where
  n_atlas := 1
  cost_name := some ("SSD")
  probSigmaOpt := none
  prob_eps := 0
  reg0 := ""
  reg1 := ""
  coef0 := 0
  coef1 := 0
  method := "ddf_label"
  diffeomorphism := false
  int_steps := 0
  pi := [1]

def gBase : NetGraph := ((buildNet trivialCollab cfgSSD inp1).toOption).getD default

/-- C7: diffeomorphic integration first divides the field by `2 ^ steps` and
then applies `steps` self-composition (scaling-and-squaring) iterations; with
`steps = 0` it is the identity, returning the input field unchanged. -/
theorem c7_integration_scaling_squaring (C : Collab) :
    (∀ v : Field, integrate C v 0 = v)
    ∧ (∀ (v : Field) (s : ℕ),
        integrate C v s = (squareStep C)^[s] (scaleDivField v (2 ^ s))) := by
  have hit : ∀ (w : Field) (s : ℕ), integrate_vec C w s = (squareStep C)^[s] w := by
    intro w s
    induction s with
    | zero => rfl
    | succ n ih => rw [integrate_vec, ih, Function.iterate_succ_apply']
  constructor
  · intro v
    show scaleDivField v (2 ^ 0) = v
    simp [scaleDivField]
  · intro v s
    rw [integrate, hit]

/-- C10: when `cost_kwargs` omits `cost_name` (so it defaults to `None`),
construction fails at the `'multi_scale' in cost_name` membership test with a
`TypeError`, before any loss-name validation or graph construction — for
every remaining configuration, including invalid method or loss names. -/
theorem c10_none_cost_name_fails_first (C : Collab) (cfg : Config) (inp : NetInput)
    (h : cfg.cost_name = none) :
    buildNet C cfg inp = .error .noneTypeMembership := by
  unfold buildNet
  rw [h]

def cfgNone : Config := { cfgSSD with cost_name := none, method := "no_such_method" }

theorem c10_witness :
    buildNet trivialCollab cfgNone inp1 = .error .noneTypeMembership :=
  c10_none_cost_name_fails_first trivialCollab cfgNone inp1 rfl

lemma buildNet_some (C : Collab) (cfg : Config) (inp : NetInput) (cname : String)
    (h : cfg.cost_name = some cname) :
    buildNet C cfg inp =
      if cfg.method = ("ddf_label") ∨ cfg.method = ("ddf_score") then
        match get_cost C cfg inp cname with
        | .error e => .error e
        | .ok c => .ok (netGraphOf C cfg inp cname c)
      else .error (.unknownMethod cfg.method) := by
  unfold buildNet
  rw [h]

/-- C4: an unrecognized network method name, loss name, or optimizer name
makes construction/graph-build raise an error (never a silent default): the
method dispatch raises `ValueError`, the `_get_cost` chain ends in
`NotImplementedError`, and the optimizer dispatch raises `ValueError`. -/
theorem c4_unknown_name_is_error (C : Collab) (cfg1 cfg2 : Config) (inp : NetInput)
    (s oname : String)
    (h1 : cfg1.cost_name = some s)
    (hm1 : cfg1.method ∉ [("ddf_label" : String), "ddf_score"])
    (h2 : cfg2.cost_name = some s)
    (hs : s ∉ costNames)
    (hm2 : cfg2.method = ("ddf_label") ∨ cfg2.method = ("ddf_score")) :
    buildNet C cfg1 inp = .error (.unknownMethod cfg1.method)
    ∧ buildNet C cfg2 inp = .error (.notImplementedCost s)
    ∧ (oname ∉ knownOptimizers →
        get_optimizer_check oname = .error ("Unknown optimizer: " ++ oname)) := by
  refine ⟨?_, ?_, ?_⟩
  · have hne : ¬(cfg1.method = ("ddf_label") ∨ cfg1.method = ("ddf_score")) := by
      simpa using hm1
    rw [buildNet_some C cfg1 inp s h1, if_neg hne]
  · simp only [costNames, List.mem_cons, List.not_mem_nil, or_false, not_or] at hs
    obtain ⟨n1, n2, n3, n4, n5, n6, n7, n8, n9, n10, n11, n12, n13, n14, n15⟩ := hs
    have hcost : get_cost C cfg2 inp s = .error (.notImplementedCost s) := by
      simp [get_cost, netBase, get_cost_base,
        n1, n2, n3, n4, n5, n6, n7, n8, n9, n10, n11, n12, n13, n14, n15]
    rw [buildNet_some C cfg2 inp s h2, if_pos hm2, hcost]
  · intro ho
    simp only [knownOptimizers, List.mem_cons, List.not_mem_nil, or_false, not_or] at ho
    obtain ⟨o1, o2, o3, o4, o5, o6, o7⟩ := ho
    simp [get_optimizer_check, o1, o2, o3, o4, o5, o6, o7]

def cfgBadMethod : Config := { cfgSSD with cost_name := some ("bogus"), method := "no_such_method" }

def cfgBadCost : Config := { cfgBadMethod with method := "ddf_label" }

theorem c4_witness :
    buildNet trivialCollab cfgBadMethod inp1 = .error (.unknownMethod ("no_such_method"))
    ∧ buildNet trivialCollab cfgBadCost inp1 = .error (.notImplementedCost ("bogus"))
    ∧ get_optimizer_check ("also_bogus") = .error ("Unknown optimizer: also_bogus") := by
  have h := c4_unknown_name_is_error trivialCollab cfgBadMethod cfgBadCost inp1
    ("bogus") ("also_bogus") rfl (by decide) rfl (by decide) (Or.inl rfl)
  exact ⟨h.1, h.2.1, h.2.2 (by decide)⟩

/-- C3: code bug. The per-atlas per-pixel Jacobian-determinant fields are
collapsed by `tf.reduce_mean` to a single scalar before the `≤ 0` test, so
the reported `# Negative Jacobians` is `count_nonzero` of one scalar — at
most 1 — and not the count of folding locations. At the determinant field
`[-1, 2, 3]` (mean `4/3 > 0`) the code reports `0` while one location has a
non-positive determinant. -/
theorem c3_negative_jacobian_count_bug :
    numNegJacob { trivialCollab with jacDetF := fun _ => [-1, 2, 3] } [[0, 0]] = 0
    ∧ negJacobCountClaim { trivialCollab with jacDetF := fun _ => [-1, 2, 3] } [[0, 0]] = 1 := by
  constructor
  · with_unfolding_all rfl
  · with_unfolding_all rfl

/-- C2 (amended): the regularization computations — the pretraining penalty
`mean(ddf ** 2)`, the trainer's bending energy, and the Jacobian-determinant
diagnostic — consume the displacement field used for warping: the raw
network output when diffeomorphic integration is disabled, and the
integrated field when it is enabled. -/
theorem c2_regularization_consumes_warping_field (C : Collab) (cfg : Config)
    (inp : NetInput) (g : NetGraph) (w : ℚ)
    (hg : buildNet C cfg inp = .ok g) :
    g.ddf = (if cfg.diffeomorphism then
        inp.raw_ddf.map (fun v => integrate C v cfg.int_steps) else inp.raw_ddf)
    ∧ g.pretrain_cost = qmean ((g.ddf.flatten).map (fun x => x * x))
    ∧ trainerBendingEnergy C g w = qmean (g.ddf.map (fun f => C.bendingE f w))
    ∧ trainerNumNegJacob C g = numNegJacob C g.ddf
    ∧ (cfg.diffeomorphism = false → g.ddf = inp.raw_ddf) := by
  obtain ⟨cname, b, hc, hm, hb, rfl⟩ := buildNet_ok_elim C cfg inp g hg
  refine ⟨rfl, rfl, rfl, rfl, ?_⟩
  intro hd
  show netDdf C cfg inp = inp.raw_ddf
  rw [netDdf, hd]
  simp

def cfgDiffeo : Config := { cfgSSD with diffeomorphism := true, int_steps := 1 }

def inpDiffeo : NetInput := { inp1 with raw_ddf := [[2]] }

/-- C2 counterexample: with diffeomorphic integration enabled (`int_steps =
1`, raw field `[2]`, a resampler returning the zero field), the graph's
pretraining penalty is `1`, computed from the integrated field `[1]`, while
the mean of the squared raw displacement entries is `4`: the regularization
computations do not consume the raw field independently of integration. -/
theorem c2_counterexample :
    ((buildNet trivialCollab cfgDiffeo inpDiffeo).toOption.map NetGraph.pretrain_cost)
      = some 1
    ∧ qmean ((inpDiffeo.raw_ddf.flatten).map (fun x => x * x)) = 4
    ∧ (1 : ℚ) ≠ 4 := by
  refine ⟨?_, ?_, by norm_num⟩
  · with_unfolding_all rfl
  · with_unfolding_all rfl

theorem c2_witness :
    buildNet trivialCollab cfgSSD inp1 = .ok gBase
    ∧ gBase.ddf = inp1.raw_ddf
    ∧ gBase.pretrain_cost = qmean ((gBase.ddf.flatten).map (fun x => x * x)) := by
  have hg : buildNet trivialCollab cfgSSD inp1 = .ok gBase := by
    with_unfolding_all rfl
  have h := c2_regularization_consumes_warping_field trivialCollab cfgSSD inp1 gBase 0 hg
  exact ⟨hg, h.2.2.2.2 rfl, h.2.1⟩

/-- C1: the segmentation is derived from the finest-scale warped atlas
probabilities multiplied elementwise by the warped atlas weight map, with
the product-pooling aggregation/normalization (`get_joint_prob`) reapplied
after the reweighting; when the warped weights are the neutral all-ones map
(the embedding of absent weights, since the graph always feeds a weight
placeholder), the segmentation equals the one from the unweighted joint
probability. -/
theorem c1_segmentation_reweighting (C : Collab) (cfg : Config) (inp : NetInput)
    (g : NetGraph) (hg : buildNet C cfg inp = .ok g) :
    g.segmenter = get_segmentation (get_joint_prob
        (stackMul (g.warped_atlases_prob.getD 0 []) g.warped_atlases_weight))
    ∧ (onesStack g.warped_atlases_weight (g.warped_atlases_prob.getD 0 []) = true →
        g.segmenter = get_segmentation (get_joint_prob (g.warped_atlases_prob.getD 0 []))) := by
  obtain ⟨cname, b, hc, hm, hb, rfl⟩ := buildNet_ok_elim C cfg inp g hg
  refine ⟨rfl, ?_⟩
  intro h1
  have h2 : stackMul ((netWap C cfg inp cname).getD 0 []) (netWaw C cfg inp)
      = (netWap C cfg inp cname).getD 0 [] := stackMul_ones _ _ h1
  show get_segmentation (get_joint_prob
      (stackMul ((netWap C cfg inp cname).getD 0 []) (netWaw C cfg inp)))
    = get_segmentation (get_joint_prob ((netWap C cfg inp cname).getD 0 []))
  rw [h2]

theorem c1_witness :
    buildNet trivialCollab cfgSSD inp1 = .ok gBase
    ∧ onesStack gBase.warped_atlases_weight (gBase.warped_atlases_prob.getD 0 []) = true
    ∧ gBase.segmenter
        = get_segmentation (get_joint_prob (gBase.warped_atlases_prob.getD 0 [])) := by
  have hg : buildNet trivialCollab cfgSSD inp1 = .ok gBase := by
    with_unfolding_all rfl
  have h1 : onesStack gBase.warped_atlases_weight (gBase.warped_atlases_prob.getD 0 [])
      = true := by with_unfolding_all rfl
  exact ⟨hg, h1, (c1_segmentation_reweighting trivialCollab cfgSSD inp1 gBase hg).2 h1⟩

/-- C5: with a regularizer type of `l1` or `l2` and a nonzero (truthy)
coefficient, the training loss exceeds the loss of the otherwise-identical
zero-coefficient configuration by exactly `regularization_loss × coefficient`;
otherwise the two losses coincide (no regularization term is added). -/
theorem c5_regularization_term (C : Collab) (cfg : Config) (inp : NetInput)
    (g g0 : NetGraph)
    (hg : buildNet C cfg inp = .ok g)
    (hg0 : buildNet C { cfg with coef0 := 0 } inp = .ok g0) :
    ((cfg.reg0 = ("l2") ∨ cfg.reg0 = ("l1")) ∧ cfg.coef0 ≠ 0 →
      g.cost = g0.cost + inp.regularization_loss * cfg.coef0)
    ∧ (¬((cfg.reg0 = ("l2") ∨ cfg.reg0 = ("l1")) ∧ cfg.coef0 ≠ 0) →
      g.cost = g0.cost) := by
  obtain ⟨cn1, b1, hc1, hm1, hb1, rfl⟩ := buildNet_ok_elim C cfg inp g hg
  obtain ⟨cn2, b2, hc2, hm2, hb2, rfl⟩ := buildNet_ok_elim C _ inp g0 hg0
  have hcc : cn1 = cn2 := by
    have h := hc2
    rw [show ({ cfg with coef0 := 0 } : Config).cost_name = cfg.cost_name from rfl, hc1] at h
    exact Option.some.inj h
  subst hcc
  have hbb : b1 = b2 := by
    have h2 : netBase C cfg inp cn1 = .ok b2 := hb2
    exact Except.ok.inj (hb1.symm.trans h2)
  have hsl : netScoresLoss C { cfg with coef0 := 0 } inp cn1
      = netScoresLoss C cfg inp cn1 := rfl
  have hr0 : regTerm { cfg with coef0 := 0 } inp = 0 := by
    simp [regTerm]
  constructor
  · intro hcond
    show b1 + netScoresLoss C cfg inp cn1 + regTerm cfg inp
      = b2 + netScoresLoss C { cfg with coef0 := 0 } inp cn1
          + regTerm { cfg with coef0 := 0 } inp
        + inp.regularization_loss * cfg.coef0
    rw [hsl, hr0, ← hbb]
    simp only [regTerm]
    rw [if_pos hcond]
    ring
  · intro hcond
    show b1 + netScoresLoss C cfg inp cn1 + regTerm cfg inp
      = b2 + netScoresLoss C { cfg with coef0 := 0 } inp cn1
          + regTerm { cfg with coef0 := 0 } inp
    rw [hsl, hr0, ← hbb]
    simp only [regTerm]
    rw [if_neg hcond]

def cfgL2reg : Config := { cfgSSD with reg0 := "l2", coef0 := 2 }

def cfgL2regZ : Config := { cfgL2reg with coef0 := 0 }

def gReg : NetGraph := ((buildNet trivialCollab cfgL2reg inp1).toOption).getD default

def gRegZ : NetGraph := ((buildNet trivialCollab cfgL2regZ inp1).toOption).getD default

theorem c5_witness :
    buildNet trivialCollab cfgL2reg inp1 = .ok gReg
    ∧ buildNet trivialCollab cfgL2regZ inp1 = .ok gRegZ
    ∧ gReg.cost = gRegZ.cost + 3 * 2 := by
  have hg : buildNet trivialCollab cfgL2reg inp1 = .ok gReg := by
    with_unfolding_all rfl
  have hg0 : buildNet trivialCollab cfgL2regZ inp1 = .ok gRegZ := by
    with_unfolding_all rfl
  have h := (c5_regularization_term trivialCollab cfgL2reg inp1 gReg gRegZ hg hg0).1
    (⟨Or.inl rfl, by show (2 : ℚ) ≠ 0; norm_num⟩)
  exact ⟨hg, hg0, h⟩

/-- C6: in `ddf_score` mode the per-atlas ground-truth score is
`Jaccard(target, warped_prob) + mean(CrossEntropy(target, 1 - warped_prob) ^ 0.3)`,
the scores loss is the mean absolute deviation of the predicted scores from
the ground truth, and the training loss exceeds the loss of the
otherwise-identical `ddf_label` configuration by exactly that scores loss;
outside `ddf_score` mode the scores loss is zero. -/
theorem c6_scores_regression (C : Collab) (cfg : Config) (inp : NetInput)
    (g g0 : NetGraph)
    (hm : cfg.method = ("ddf_score"))
    (hg : buildNet C cfg inp = .ok g)
    (hg0 : buildNet C { cfg with method := ("ddf_label") } inp = .ok g0) :
    g.scores_gt = (List.range cfg.n_atlas).map (fun n =>
        C.jaccFg inp.target_label ((g.warped_atlases_prob.getD 0 []).getD n [])
          + qmean ((C.ceMap inp.target_label
              (oneMinusMap ((g.warped_atlases_prob.getD 0 []).getD n []))).map C.rpow03))
    ∧ g.scores_loss = qmean (List.zipWith (fun s t => |s - t|) inp.scores g.scores_gt)
    ∧ g.cost = g0.cost + g.scores_loss
    ∧ g0.scores_loss = 0 := by
  obtain ⟨cn1, b1, hc1, hm1, hb1, rfl⟩ := buildNet_ok_elim C cfg inp g hg
  obtain ⟨cn2, b2, hc2, hm2, hb2, rfl⟩ := buildNet_ok_elim C _ inp g0 hg0
  have hcc : cn1 = cn2 := by
    have h := hc2
    rw [show ({ cfg with method := ("ddf_label") } : Config).cost_name = cfg.cost_name from rfl,
      hc1] at h
    exact Option.some.inj h
  subst hcc
  have hbb : b1 = b2 := by
    have h2 : netBase C cfg inp cn1 = .ok b2 := hb2
    exact Except.ok.inj (hb1.symm.trans h2)
  have h0 : netScoresLoss C { cfg with method := ("ddf_label") } inp cn1 = 0 := by
    unfold netScoresLoss
    split
    · rename_i hcond
      have hlit : ("ddf_label" : String) = ("ddf_score") := hcond
      exact absurd hlit (by decide)
    · rfl
  refine ⟨?_, ?_, ?_, h0⟩
  · show (if cfg.method = ("ddf_score") then netScoresGT C cfg inp cn1 else []) = _
    rw [if_pos hm]
    rfl
  · show netScoresLoss C cfg inp cn1
      = qmean (List.zipWith (fun s t => |s - t|) inp.scores
          (if cfg.method = ("ddf_score") then netScoresGT C cfg inp cn1 else []))
    rw [if_pos hm]
    unfold netScoresLoss
    rw [if_pos hm]
  · show b1 + netScoresLoss C cfg inp cn1 + regTerm cfg inp
      = (b2 + netScoresLoss C { cfg with method := ("ddf_label") } inp cn1
          + regTerm { cfg with method := ("ddf_label") } inp)
        + netScoresLoss C cfg inp cn1
    have hrr : regTerm { cfg with method := ("ddf_label") } inp = regTerm cfg inp := rfl
    rw [h0, hrr, ← hbb]
    ring

def cfgScore : Config := { cfgSSD with method := "ddf_score" }

def cfgScoreBase : Config := { cfgScore with method := "ddf_label" }

def gScore : NetGraph := ((buildNet trivialCollab cfgScore inp1).toOption).getD default

def gScoreBase : NetGraph := ((buildNet trivialCollab cfgScoreBase inp1).toOption).getD default

theorem c6_witness :
    buildNet trivialCollab cfgScore inp1 = .ok gScore
    ∧ buildNet trivialCollab cfgScoreBase inp1 = .ok gScoreBase
    ∧ gScore.scores_gt = [0]
    ∧ gScore.scores_loss = 0
    ∧ gScore.cost = gScoreBase.cost + gScore.scores_loss := by
  have hg : buildNet trivialCollab cfgScore inp1 = .ok gScore := by
    with_unfolding_all rfl
  have hg0 : buildNet trivialCollab cfgScoreBase inp1 = .ok gScoreBase := by
    with_unfolding_all rfl
  have h := c6_scores_regression trivialCollab cfgScore inp1 gScore gScoreBase rfl hg hg0
  refine ⟨hg, hg0, ?_, ?_, h.2.2.1⟩
  · rw [h.1]
    with_unfolding_all rfl
  · rw [h.2.1]
    with_unfolding_all rfl

/-- C8: the pretraining loss is `mean(ddf ** 2)` for every successful
construction, independently of the selected main loss; for the `L2_norm`
loss with zero regularization coefficient the training loss is the same
quantity, and with an all-zero displacement field both are `0`. -/
theorem c8_pretrain_and_l2_norm (C : Collab) (cfg : Config) (inp : NetInput)
    (g : NetGraph) (hg : buildNet C cfg inp = .ok g) :
    g.pretrain_cost = qmean ((g.ddf.flatten).map (fun x => x * x))
    ∧ (cfg.cost_name = some ("L2_norm") → cfg.method = ("ddf_label") → cfg.coef0 = 0 →
        g.cost = qmean ((g.ddf.flatten).map (fun x => x * x))
        ∧ ((∀ f ∈ g.ddf, ∀ x ∈ f, x = 0) → g.cost = 0 ∧ g.pretrain_cost = 0)) := by
  obtain ⟨cn1, b1, hc1, hm1, hb1, rfl⟩ := buildNet_ok_elim C cfg inp g hg
  refine ⟨rfl, ?_⟩
  intro hcn hm hc0
  have hcc : cn1 = ("L2_norm") := Option.some.inj (hc1.symm.trans hcn)
  subst hcc
  have hbase : netBase C cfg inp ("L2_norm")
      = .ok (qmean (((netDdf C cfg inp).flatten).map (fun x => x * x))) := by
    simp [netBase, get_cost_base]
  have hb : b1 = qmean (((netDdf C cfg inp).flatten).map (fun x => x * x)) :=
    Except.ok.inj (hb1.symm.trans hbase)
  have hs0 : netScoresLoss C cfg inp ("L2_norm") = 0 := by
    simp [netScoresLoss, hm]
  have hr0 : regTerm cfg inp = 0 := by
    simp [regTerm, hc0]
  have hcost : (netGraphOf C cfg inp ("L2_norm")
        (b1 + netScoresLoss C cfg inp ("L2_norm") + regTerm cfg inp)).cost
      = qmean (((netDdf C cfg inp).flatten).map (fun x => x * x)) := by
    show b1 + netScoresLoss C cfg inp ("L2_norm") + regTerm cfg inp = _
    rw [hs0, hr0, hb, add_zero, add_zero]
  refine ⟨hcost, ?_⟩
  intro h0
  have hz := qmean_sq_flatten_zero (netDdf C cfg inp) h0
  exact ⟨hcost.trans hz, hz⟩

def cfgL2z : Config := { cfgSSD with cost_name := some ("L2_norm") }

def gL2 : NetGraph := ((buildNet trivialCollab cfgL2z inp1).toOption).getD default

theorem c8_witness :
    buildNet trivialCollab cfgL2z inp1 = .ok gL2
    ∧ gL2.cost = 0 ∧ gL2.pretrain_cost = 0 := by
  have hg : buildNet trivialCollab cfgL2z inp1 = .ok gL2 := by
    with_unfolding_all rfl
  have h := ((c8_pretrain_and_l2_norm trivialCollab cfgL2z inp1 gL2 hg).2 rfl rfl rfl).2
    (by decide)
  exact ⟨hg, h.1, h.2⟩

/-- C9: for each sigma in the declared scale set (in order) and each atlas
index `n`, the atlas-warping step produces one stacked tensor per sigma
whose `n`-th atlas slice is the probability map of atlas `n` at that sigma
(with floor `eps`), resampled by the `n`-th displacement field with the
requested interpolation. -/
theorem c9_warp_orchestration (C : Collab) (nA : ℕ) (labels : List ProbMap)
    (ddf : List Field) (sigmas : List ℚ) (eps : ℚ) (interp : String)
    (hl : labels.length = nA) (hd : ddf.length = nA) :
    (get_warped_atlases_prob C nA labels ddf sigmas eps interp).length = sigmas.length
    ∧ ∀ i, i < sigmas.length →
        ((get_warped_atlases_prob C nA labels ddf sigmas eps interp).getD i []).length = nA
        ∧ ∀ n, n < nA →
            (((get_warped_atlases_prob C nA labels ddf sigmas eps interp).getD i []).getD n [])
              = C.resampleMap interp
                  (C.probFromLabel (labels.getD n []) (sigmas.getD i 0) eps)
                  (ddf.getD n []) := by
  unfold get_warped_atlases_prob
  refine ⟨by simp, ?_⟩
  intro i hi
  have houter : ((sigmas.map (fun σ => (List.range nA).map (fun n =>
      C.resampleMap interp (C.probFromLabel (labels.getD n []) σ eps)
        (ddf.getD n [])))).getD i [])
      = (List.range nA).map (fun n =>
          C.resampleMap interp (C.probFromLabel (labels.getD n []) (sigmas.getD i 0) eps)
            (ddf.getD n [])) := by
    rw [List.getD_eq_getElem?_getD, List.getElem?_map, List.getElem?_eq_getElem hi,
      List.getD_eq_getElem?_getD, List.getElem?_eq_getElem hi]
    rfl
  rw [houter]
  refine ⟨by simp, ?_⟩
  intro n hn
  rw [List.getD_eq_getElem?_getD, List.getElem?_map, List.getElem?_range hn]
  rfl

theorem c9_witness :
    ([[[1, 0]]] : List ProbMap).length = 1
    ∧ ([[0]] : List Field).length = 1
    ∧ (get_warped_atlases_prob trivialCollab 1 [[[1, 0]]] [[0]] [1] 0 ("linear")).length = 1
    ∧ ((get_warped_atlases_prob trivialCollab 1 [[[1, 0]]] [[0]] [1] 0 ("linear")).getD 0 []).length = 1
    ∧ (((get_warped_atlases_prob trivialCollab 1 [[[1, 0]]] [[0]] [1] 0 ("linear")).getD 0 []).getD 0 [])
        = trivialCollab.resampleMap ("linear")
            (trivialCollab.probFromLabel [[1, 0]] 1 0) [0] := by
  have h := c9_warp_orchestration trivialCollab 1 [[[1, 0]]] [[0]] [1] 0 ("linear") rfl rfl
  have h2 := h.2 0 (by norm_num)
  exact ⟨rfl, rfl, h.1, h2.1, h2.2 0 (by norm_num)⟩

end MvMM
